import Mathlib

/-!
# Verification of `cr_autophagy.py` (post-processing utilities)

Shallow embedding of the post-processing and visualization utilities of the
repository (file `cellular_raza-examples/autophagy_pyo3/cr_autophagy.py`).

Modelling conventions:
* A filesystem directory listing is a `List String` of entry names, in
  directory-listing order (`os.listdir`).
* A path is a list of path components (`Path := List String`).
* Python exceptions are the explicit error type `PyErr`; fallible functions
  return `Except PyErr _`.
* A fragment file of an iteration directory is modelled by the list of
  particle records in its `data` array (the claims under scrutiny only
  concern well-formed fragment files).
* Numeric scalars of particle records are a type parameter `α`; the claims
  about the scatter plot instantiate it with `ℝ`, the executable witnesses
  with `ℚ`.
-/

/-- Python exceptions raised by the code under scrutiny. -/
inductive PyErr where
  /-- `FileNotFoundError` raised by `os.listdir` on an absent directory. -/
  | fileNotFound
  /-- `IndexError` raised by indexing `[-1]` into an empty list. -/
  | indexError
  /-- `ValueError` raised by `int(x)` on a string that does not parse. -/
  | valueErrorParse
  /-- the explicit `ValueError("Could not find iteration ...")`. -/
  | valueErrorNotFound
  /-- failure of `get_simulation_settings` (missing or malformed
  `simulation_settings.json`). -/
  | settingsError
deriving DecidableEq

/-- Python `str.strip` style whitespace removal at both ends,
as performed by `int()` before parsing. -/
def pyStrip (s : List Char) : List Char :=
  ((s.dropWhile Char.isWhitespace).reverse.dropWhile Char.isWhitespace).reverse

/-- Digit-and-underscore tail of a Python integer literal string: after a
first digit worth `acc`, consume further digits, allowing a single
underscore between two digits (as `int()` does). -/
def pyDigitsGo (acc : Nat) : List Char → Option Nat
  | [] => some acc
  | c :: cs =>
    if c.isDigit then pyDigitsGo (acc * 10 + (c.toNat - 48)) cs
    else if c = '_' then
      match cs with
      | [] => none
      | d :: ds =>
        if d.isDigit then pyDigitsGo (acc * 10 + (d.toNat - 48)) ds else none
    else none

/-- Unsigned digit string accepted by Python `int()` (nonempty, starts with a
digit, single underscores allowed between digits). -/
def pyDigits : List Char → Option Nat
  | [] => none
  | c :: cs => if c.isDigit then pyDigitsGo (c.toNat - 48) cs else none

/-- Python `int(s)` on a string: strip whitespace, optional sign, digits.
`none` models the `ValueError` raised on malformed input. -/
def pyInt (s : String) : Option Int :=
  match pyStrip s.toList with
  | '+' :: rest => (pyDigits rest).map (fun n => (n : Int))
  | '-' :: rest => (pyDigits rest).map (fun n => -(n : Int))
  | rest => (pyDigits rest).map (fun n => (n : Int))

/-- `int(s)` as a fallible computation: a failed parse raises `ValueError`. -/
def pyIntE (s : String) : Except PyErr Int :=
  match pyInt s with
  | some n => Except.ok n
  | none => Except.error PyErr.valueErrorParse

/-- Evaluate a fallible function on every element of a list, left to right,
propagating the first raised exception (the semantics of a Python loop or
comprehension that applies a raising function to each element). -/
def mapE (f : α → Except PyErr β) : List α → Except PyErr (List β)
  | [] => Except.ok []
  | a :: as =>
    match f a with
    | Except.error e => Except.error e
    | Except.ok b =>
      match mapE f as with
      | Except.error e => Except.error e
      | Except.ok bs => Except.ok (b :: bs)

/-- Python `sorted` on a list of integers (stable sort by `≤`). -/
def pySortedInt (l : List Int) : List Int := List.insertionSort (· ≤ ·) l

/-- Python `sorted` on a list of strings (stable lexicographic sort). -/
def pySortedStr (l : List String) : List String := List.insertionSort (· ≤ ·) l

/-- A filesystem path, as its list of components. -/
abbrev FsPath := List String

/-- `get_last_output_path(name)`: `Path("out") / name / sorted(os.listdir(Path("out") / name))[-1]`.
The listing of `out/<name>` is passed explicitly: `none` models an absent
directory (so `os.listdir` raises `FileNotFoundError`), `some entries` its
listing. Indexing `[-1]` into the empty sorted list raises `IndexError`. -/
def get_last_output_path (listing : Option (List String)) (name : String) :
    Except PyErr FsPath :=
  match listing with
  | none => Except.error PyErr.fileNotFound
  | some entries =>
    match (pySortedStr entries).getLast? with
    | none => Except.error PyErr.indexError
    | some last => Except.ok (["out", name] ++ [last])

/-- `get_all_iterations(output_path)`:
`sorted([int(x) for x in os.listdir(output_path / "cell_storage/json")])`.
The listing of the storage root is passed explicitly. -/
def get_all_iterations (listing : List String) : Except PyErr (List Int) :=
  match mapE pyIntE listing with
  | Except.ok xs => Except.ok (pySortedInt xs)
  | Except.error e => Except.error e

section SortLemmas

/-- In a `≤`-sorted nonempty list every element is at most the last one. -/
theorem sorted_le_getLast {α : Type} [Preorder α] :
    ∀ {l : List α}, l.Sorted (· ≤ ·) → ∀ x ∈ l, ∀ h : l ≠ [], x ≤ l.getLast h
  | [], _, x, hx, h => absurd rfl h
  | [a], _, x, hx, _ => by
      simp only [List.mem_singleton] at hx
      simp [hx, List.getLast]
  | a :: b :: t, hs, x, hx, _ => by
      rw [List.sorted_cons] at hs
      rw [List.getLast_cons (List.cons_ne_nil b t)]
      rcases List.mem_cons.mp hx with hxa | hxbt
      · exact hxa ▸ hs.1 _ (List.getLast_mem (List.cons_ne_nil b t))
      · exact sorted_le_getLast hs.2 x hxbt (List.cons_ne_nil b t)

end SortLemmas

section MapELemmas

/-- `mapE pyIntE` succeeds exactly when every string parses as an integer. -/
theorem mapE_pyIntE_ok_iff (l : List String) :
    (∃ xs, mapE pyIntE l = Except.ok xs) ↔ ∀ s ∈ l, pyInt s ≠ none := by
  induction l with
  | nil => simp [mapE]
  | cons a as ih =>
    constructor
    · rintro ⟨xs, hxs⟩ s hs
      rcases ha : pyInt a with _ | n
      · simp [mapE, pyIntE, ha] at hxs
      · rcases hrec : mapE pyIntE as with e | ys
        · simp [mapE, pyIntE, ha, hrec] at hxs
        · rcases List.mem_cons.mp hs with rfl | hmem
          · simp [ha]
          · exact ih.mp ⟨ys, hrec⟩ s hmem
    · intro hall
      have ha : pyInt a ≠ none := hall a (List.mem_cons_self a as)
      rcases hpa : pyInt a with _ | n
      · exact absurd hpa ha
      · rcases ih.mpr (fun s hs => hall s (List.mem_cons_of_mem a hs)) with ⟨ys, hys⟩
        exact ⟨n :: ys, by simp [mapE, pyIntE, hpa, hys]⟩

/-- `mapE pyIntE` raises only the parse `ValueError`. -/
theorem mapE_pyIntE_error : ∀ (l : List String) (e : PyErr),
    mapE pyIntE l = Except.error e → e = PyErr.valueErrorParse
  | [], e, h => by simp [mapE] at h
  | a :: as, e, h => by
      rcases hpa : pyInt a with _ | n
      · simp [mapE, pyIntE, hpa] at h
        exact h.symm
      · rcases hrec : mapE pyIntE as with e2 | ys
        · have h2 := mapE_pyIntE_error as e2 hrec
          simp [mapE, pyIntE, hpa, hrec] at h
          exact h ▸ h2
        · simp [mapE, pyIntE, hpa, hrec] at h

/-- A successful `mapE` preserves the length of the list. -/
theorem mapE_ok_length {α β : Type} (f : α → Except PyErr β) :
    ∀ (l : List α) (bs : List β), mapE f l = Except.ok bs → bs.length = l.length
  | [], bs, h => by simp [mapE] at h; simp [← h]
  | a :: as, bs, h => by
      rcases hfa : f a with e | b
      · simp [mapE, hfa] at h
      · rcases hrec : mapE f as with e | ys
        · simp [mapE, hfa, hrec] at h
        · simp [mapE, hfa, hrec] at h
          have := mapE_ok_length f as ys hrec
          simp [← h, this]

end MapELemmas

/-- C2 counterexample: in the storage listing `["1", "01"]` every name parses
as an integer (both to `1`), yet `get_all_iterations` returns `[1, 1]`, which
has a duplicate and is not strictly increasing: `sorted` on a Python list
keeps duplicates, it does not form a set. -/
theorem get_all_iterations_counterexample :
    pyInt "1" = some 1 ∧ pyInt "01" = some 1 ∧
    get_all_iterations ["1", "01"] = Except.ok [1, 1] ∧
    ¬ ([1, 1] : List Int).Sorted (· < ·) ∧ ¬ ([1, 1] : List Int).Nodup := by
  refine ⟨rfl, rfl, rfl, ?_, ?_⟩ <;> decide

/-- C2 (amended): when every subdirectory name parses as an integer,
`get_all_iterations` returns the parsed integers sorted in non-decreasing
order (a permutation of the parse results); the order is strictly increasing
with no duplicates whenever the parsed integers are pairwise distinct.  Any
non-integer-named entry causes a fatal parse error. -/
theorem get_all_iterations_spec (listing : List String) :
    (∀ xs, mapE pyIntE listing = Except.ok xs →
      get_all_iterations listing = Except.ok (pySortedInt xs) ∧
      (pySortedInt xs).Perm xs ∧
      (pySortedInt xs).Sorted (· ≤ ·) ∧
      (xs.Nodup → (pySortedInt xs).Sorted (· < ·) ∧ (pySortedInt xs).Nodup)) ∧
    ((∃ s ∈ listing, pyInt s = none) →
      get_all_iterations listing = Except.error PyErr.valueErrorParse) := by
  constructor
  · intro xs hxs
    refine ⟨by simp [get_all_iterations, hxs], List.perm_insertionSort _ xs,
      List.sorted_insertionSort _ xs, ?_⟩
    intro hnodup
    have hnd : (pySortedInt xs).Nodup :=
      ((List.perm_insertionSort _ xs).nodup_iff).mpr hnodup
    exact ⟨(List.sorted_insertionSort _ xs).lt_of_le hnd, hnd⟩
  · intro hbad
    rcases hm : mapE pyIntE listing with e | xs
    · simp [get_all_iterations, hm, mapE_pyIntE_error listing e hm]
    · rcases hbad with ⟨s, hs, hnone⟩
      exact absurd hnone ((mapE_pyIntE_ok_iff listing).mp ⟨xs, hm⟩ s hs)

/-- Witness for `get_all_iterations_spec` at the listing `["10", "2"]`. -/
theorem get_all_iterations_spec_witness :
    mapE pyIntE ["10", "2"] = Except.ok [10, 2] ∧
    get_all_iterations ["10", "2"] = Except.ok [2, 10] ∧
    ([2, 10] : List Int).Sorted (· < ·) := by
  have h := (get_all_iterations_spec ["10", "2"]).1 [10, 2] rfl
  refine ⟨rfl, h.1, (h.2.2.2 (by decide)).1⟩

/-- C6 counterexample: on an existing but empty run directory,
`get_last_output_path` fails with `IndexError` (from `[-1]` on the empty
sorted listing), which is not the underlying filesystem error. -/
theorem get_last_output_path_counterexample :
    get_last_output_path (some []) "autophagy" = Except.error PyErr.indexError ∧
    PyErr.indexError ≠ PyErr.fileNotFound := ⟨rfl, by decide⟩

/-- C6 (amended): `get_last_output_path` lists the run directory, sorts the
entries lexicographically and returns the path ending in the last (i.e. a
lexicographically maximal) entry.  When the directory is absent it propagates
the filesystem `FileNotFoundError`; when the directory exists but is empty it
fails with an `IndexError` instead. -/
theorem get_last_output_path_spec (listing : List String) (name : String) :
    get_last_output_path none name = Except.error PyErr.fileNotFound ∧
    get_last_output_path (some []) name = Except.error PyErr.indexError ∧
    (listing ≠ [] → ∃ last,
      get_last_output_path (some listing) name = Except.ok ["out", name, last] ∧
      last ∈ listing ∧ ∀ e ∈ listing, e ≤ last) := by
  refine ⟨rfl, rfl, ?_⟩
  intro hne
  have hperm : (pySortedStr listing).Perm listing := List.perm_insertionSort _ listing
  have hsne : pySortedStr listing ≠ [] := by
    intro h0
    exact hne (List.Perm.eq_nil (h0 ▸ hperm.symm))
  refine ⟨(pySortedStr listing).getLast hsne, ?_, ?_, ?_⟩
  · simp [get_last_output_path, List.getLast?_eq_getLast_of_ne_nil hsne]
  · exact hperm.mem_iff.mp (List.getLast_mem hsne)
  · intro e he
    exact sorted_le_getLast (List.sorted_insertionSort _ listing) e
      (hperm.mem_iff.mpr he) hsne

/-- Witness for `get_last_output_path_spec` at the listing `["b", "a"]`. -/
theorem get_last_output_path_spec_witness :
    (["b", "a"] : List String) ≠ [] ∧ ∃ last,
      get_last_output_path (some ["b", "a"]) "autophagy" =
        Except.ok ["out", "autophagy", last] ∧
      last ∈ ["b", "a"] ∧ ∀ e ∈ (["b", "a"] : List String), e ≤ last := by
  refine ⟨by decide, (get_last_output_path_spec ["b", "a"] "autophagy").2.2 (by decide)⟩

/-! ## Particle storage: fragment files, batches, iteration lookup -/

/-- A particle-state record recovered from a fragment file, flattened the way
`pd.json_normalize` flattens the nested JSON object (one table row per
record; the dotted column names of the source are the fields here).  The
numeric scalar type is the parameter `α`. -/
structure ParticleRecord (α : Type) where
  identifier : List Int
  pos : α × α × α
  vel : α × α × α
  random_vector : α × α × α
  species : String
  cell_radius : α
  neighbour_count : Int
deriving DecidableEq

/-- The `cell_storage/json` tree of one run: for each iteration subdirectory,
in directory-listing order, its name and the `data` record list of each of
its fragment files, in directory-listing order. -/
abbrev Storage (α : Type) := List (String × List (List (ParticleRecord α)))

/-- `_combine_batches(run_directory)`: extends one big list by the `data`
field of every fragment file of the directory, in listing order. -/
def _combine_batches {α : Type} (frags : List (List (ParticleRecord α))) :
    List (ParticleRecord α) :=
  frags.flatten

/-- The directory-search loop of `get_particles_at_iter`: walk the storage
listing in order, parse each name with `int(x)` (raising `ValueError` on a
non-integer name), stop at the first name equal to the requested iteration;
falling off the end raises the explicit
`ValueError("Could not find iteration ...")`. -/
def findRunDir {α : Type} : Storage α → Int → Except PyErr (List (List (ParticleRecord α)))
  | [], _ => Except.error PyErr.valueErrorNotFound
  | (name, frags) :: rest, iteration =>
    match pyIntE name with
    | Except.error e => Except.error e
    | Except.ok n =>
      if n = iteration then Except.ok frags else findRunDir rest iteration

/-- `get_particles_at_iter(output_path, iteration)`: locate the iteration's
directory, combine its batches and normalize them into the table (one row
per record; the subsequent per-column `apply` conversions keep every row). -/
def get_particles_at_iter {α : Type} (storage : Storage α) (iteration : Int) :
    Except PyErr (List (ParticleRecord α)) :=
  match findRunDir storage iteration with
  | Except.error e => Except.error e
  | Except.ok frags => Except.ok (_combine_batches frags)

/-- `__iter_to_cells((iteration, dir))`:
`(int(iteration), _combine_batches(dir / iteration))`; the storage entry
carries the fragment record lists of its own subdirectory. -/
def __iter_to_cells {α : Type} (entry : String × List (List (ParticleRecord α))) :
    Except PyErr (Int × List (ParticleRecord α)) :=
  match pyIntE entry.1 with
  | Except.error e => Except.error e
  | Except.ok n => Except.ok (n, _combine_batches entry.2)

/-- `get_particles_at_all_iterations(output_path, threads)`: maps
`__iter_to_cells` over only the first 10 entries of the storage listing
(`runs[:10]`) through the worker pool; `pool.map` preserves order and
re-raises the first worker exception when the results are collected. -/
def get_particles_at_all_iterations {α : Type} (storage : Storage α) :
    Except PyErr (List (Int × List (ParticleRecord α))) :=
  mapE __iter_to_cells (storage.take 10)

section FindRunDirLemmas

/-- Skipping one entry whose name parses to a non-matching integer. -/
theorem findRunDir_cons_skip {α : Type} (aname : String)
    (afr : List (List (ParticleRecord α))) (rest : Storage α) (it n : Int)
    (hn : pyInt aname = some n) (hne : n ≠ it) :
    findRunDir ((aname, afr) :: rest) it = findRunDir rest it := by
  simp [findRunDir, pyIntE, hn, hne]

/-- Skipping a prefix of entries whose names parse to non-matching integers. -/
theorem findRunDir_append_skip {α : Type} (pre : Storage α) (it : Int)
    (hpre : ∀ e ∈ pre, ∃ n, pyInt e.1 = some n ∧ n ≠ it) (tail : Storage α) :
    findRunDir (pre ++ tail) it = findRunDir tail it := by
  induction pre with
  | nil => rfl
  | cons a rest ih =>
    rcases hpre a (List.mem_cons_self a rest) with ⟨n, hn, hne⟩
    rcases a with ⟨aname, afr⟩
    rw [List.cons_append, findRunDir_cons_skip aname afr _ it n hn hne]
    exact ih (fun e he => hpre e (List.mem_cons_of_mem _ he))

/-- `findRunDir` raises the "not found" error exactly when every name parses
to an integer different from the requested iteration. -/
theorem findRunDir_not_found_iff {α : Type} : ∀ (storage : Storage α) (it : Int),
    (findRunDir storage it = Except.error PyErr.valueErrorNotFound ↔
      ∀ e ∈ storage, ∃ n, pyInt e.1 = some n ∧ n ≠ it)
  | [], it => by simp [findRunDir]
  | (name, frags) :: rest, it => by
      rcases hp : pyInt name with _ | n
      · have hred : findRunDir ((name, frags) :: rest) it =
            Except.error PyErr.valueErrorParse := by
          simp [findRunDir, pyIntE, hp]
        rw [hred]
        constructor
        · intro h
          exact absurd (Except.error.inj h) (by decide)
        · intro hall
          rcases hall (name, frags) (List.mem_cons_self _ _) with ⟨n, hn, _⟩
          simp [hp] at hn
      · by_cases hit : n = it
        · have hred : findRunDir ((name, frags) :: rest) it = Except.ok frags := by
            simp [findRunDir, pyIntE, hp, hit]
          rw [hred]
          constructor
          · intro h
            exact Except.noConfusion h
          · intro hall
            rcases hall (name, frags) (List.mem_cons_self _ _) with ⟨m, hm, hmne⟩
            rw [hp] at hm
            injection hm with hnm
            exact absurd (hnm ▸ hit) hmne
        · have hred : findRunDir ((name, frags) :: rest) it = findRunDir rest it := by
            simp [findRunDir, pyIntE, hp, hit]
          rw [hred, findRunDir_not_found_iff rest it, List.forall_mem_cons]
          simp [hp, hit]

/-- A successful `findRunDir` returns the fragments of the first entry in
listing order whose name parses to the requested iteration. -/
theorem findRunDir_ok_split {α : Type} : ∀ (storage : Storage α) (it : Int)
    (frags : List (List (ParticleRecord α))),
    findRunDir storage it = Except.ok frags →
    ∃ pre name post, storage = pre ++ (name, frags) :: post ∧
      pyInt name = some it ∧
      ∀ e ∈ pre, ∃ n, pyInt e.1 = some n ∧ n ≠ it
  | [], it, frags, h => by simp [findRunDir] at h
  | (name, fr) :: rest, it, frags, h => by
      rcases hp : pyInt name with _ | n
      · simp [findRunDir, pyIntE, hp] at h
      · by_cases hit : n = it
        · have hfr : fr = frags := by
            simpa [findRunDir, pyIntE, hp, hit] using h
          exact ⟨[], name, rest, by simp [hfr], hit ▸ hp, by simp⟩
        · have hred : findRunDir ((name, fr) :: rest) it = findRunDir rest it := by
            simp [findRunDir, pyIntE, hp, hit]
          rcases findRunDir_ok_split rest it frags (hred ▸ h) with
            ⟨pre, nm, post, heq, hnm, hpre⟩
          refine ⟨(name, fr) :: pre, nm, post, by simp [heq], hnm, ?_⟩
          intro e he
          rcases List.mem_cons.mp he with rfl | hm
          · exact ⟨n, hp, hit⟩
          · exact hpre e hm

end FindRunDirLemmas

/-- A sample cargo particle record over `ℚ`, for concrete evaluations. -/
def recA : ParticleRecord ℚ :=
  { identifier := [0, 1], pos := (0, 0, 0), vel := (0, 0, 0),
    random_vector := (0, 0, 0), species := "Cargo", cell_radius := 1,
    neighbour_count := 0 }

/-- A sample non-cargo particle record over `ℚ`, for concrete evaluations. -/
def recB : ParticleRecord ℚ :=
  { identifier := [1, 0], pos := (2, 2, 2), vel := (0, 0, 0),
    random_vector := (0, 0, 0), species := "R11", cell_radius := 1 / 2,
    neighbour_count := 3 }

/-- A sample storage tree: one iteration directory "0" with two fragment
files holding 1 and 2 records. -/
def storageEx : Storage ℚ := [("0", [[recA], [recB, recA]])]

/-- C1: for every valid (storage, iteration) pair, `get_particles_at_iter`
returns a table with one row per record: its row count is the sum of the
record counts of the `data` arrays of all fragment files of that iteration's
directory, and the rows are exactly the per-file record lists concatenated
in directory-listing order. -/
theorem get_particles_at_iter_row_count {α : Type} (storage : Storage α)
    (it : Int) (frags : List (List (ParticleRecord α)))
    (h : findRunDir storage it = Except.ok frags) :
    get_particles_at_iter storage it = Except.ok (_combine_batches frags) ∧
    (_combine_batches frags).length = (frags.map List.length).sum ∧
    _combine_batches frags = frags.flatten := by
  refine ⟨by simp [get_particles_at_iter, h], ?_, rfl⟩
  simp [_combine_batches]

/-- Witness for `get_particles_at_iter_row_count`: one directory "0" with two
fragment files holding 1 and 2 records gives a 3-row table. -/
theorem get_particles_at_iter_row_count_witness :
    findRunDir storageEx 0 = Except.ok [[recA], [recB, recA]] ∧
    get_particles_at_iter storageEx 0 =
      Except.ok (_combine_batches [[recA], [recB, recA]]) ∧
    (_combine_batches [[recA], [recB, recA]]).length = 3 :=
  ⟨rfl, (get_particles_at_iter_row_count storageEx 0 [[recA], [recB, recA]] rfl).1, rfl⟩

/-- C5 counterexample: with the single subdirectory "foo", no subdirectory
name parses to the requested iteration 5, yet the raised error is the parse
`ValueError` from `int("foo")`, not the "not found" `ValueError`. -/
theorem get_particles_at_iter_counterexample :
    (∀ e ∈ ([("foo", [])] : Storage ℚ), pyInt e.1 = none) ∧
    get_particles_at_iter ([("foo", [])] : Storage ℚ) 5 =
      Except.error PyErr.valueErrorParse ∧
    PyErr.valueErrorParse ≠ PyErr.valueErrorNotFound := by
  refine ⟨?_, rfl, by decide⟩
  intro e he
  have h := List.mem_singleton.mp he
  subst h
  rfl

/-- C5 (amended): `get_particles_at_iter` selects, in listing order, the
first subdirectory whose name parses to an integer equal to the requested
iteration (integer equality, not string match) and returns its combined
batch; it raises the "not found" error if and only if every subdirectory
name parses to an integer and none of them equals the requested iteration
(a non-integer name reached before any match raises a parse error instead). -/
theorem get_particles_at_iter_not_found_iff {α : Type} (storage : Storage α)
    (it : Int) :
    (get_particles_at_iter storage it = Except.error PyErr.valueErrorNotFound ↔
      ∀ e ∈ storage, ∃ n, pyInt e.1 = some n ∧ n ≠ it) ∧
    (∀ df, get_particles_at_iter storage it = Except.ok df →
      ∃ pre name frags post, storage = pre ++ (name, frags) :: post ∧
        pyInt name = some it ∧ df = _combine_batches frags ∧
        ∀ e ∈ pre, ∃ n, pyInt e.1 = some n ∧ n ≠ it) := by
  constructor
  · have hiff : get_particles_at_iter storage it =
        Except.error PyErr.valueErrorNotFound ↔
        findRunDir storage it = Except.error PyErr.valueErrorNotFound := by
      rcases hf : findRunDir storage it with e | frags
      · simp [get_particles_at_iter, hf]
      · simp [get_particles_at_iter, hf]
    rw [hiff]
    exact findRunDir_not_found_iff storage it
  · intro df h
    rcases hf : findRunDir storage it with e | frags
    · simp [get_particles_at_iter, hf] at h
    · simp [get_particles_at_iter, hf] at h
      rcases findRunDir_ok_split storage it frags hf with
        ⟨pre, nm, post, heq, hnm, hpre⟩
      exact ⟨pre, nm, frags, post, heq, hnm, h.symm, hpre⟩

/-- Witness for `get_particles_at_iter_not_found_iff`: the concrete storage
with directory "0" yields the 3-row combined batch of that directory. -/
theorem get_particles_at_iter_not_found_iff_witness :
    get_particles_at_iter storageEx 0 = Except.ok [recA, recB, recA] ∧
    ∃ pre name frags post, storageEx = pre ++ (name, frags) :: post ∧
      pyInt name = some 0 ∧ ([recA, recB, recA] : List (ParticleRecord ℚ)) =
        _combine_batches frags ∧
      ∀ e ∈ pre, ∃ n, pyInt e.1 = some n ∧ n ≠ 0 :=
  ⟨rfl, (get_particles_at_iter_not_found_iff storageEx 0).2 [recA, recB, recA] rfl⟩

/-- C10: `get_particles_at_iter` parses the subdirectory names one at a time
in directory-listing order and stops at the first match.  After any prefix of
integer-named, non-matching entries: a non-integer name raises the parse
error from `int(x)` (not the "not found" error) whether or not a matching
entry follows, and a matching name ends the search with that directory's
combined batch, so of two names parsing to the requested integer only the
first in listing order is used. -/
theorem get_particles_at_iter_listing_order {α : Type} (pre post : Storage α)
    (it : Int) (hpre : ∀ e ∈ pre, ∃ n, pyInt e.1 = some n ∧ n ≠ it) :
    (∀ bad frags, pyInt bad = none →
      get_particles_at_iter (pre ++ (bad, frags) :: post) it =
        Except.error PyErr.valueErrorParse) ∧
    (∀ name frags, pyInt name = some it →
      get_particles_at_iter (pre ++ (name, frags) :: post) it =
        Except.ok (_combine_batches frags)) := by
  constructor
  · intro bad frags hbad
    have h1 := findRunDir_append_skip pre it hpre ((bad, frags) :: post)
    have h2 : findRunDir ((bad, frags) :: post) it =
        Except.error PyErr.valueErrorParse := by
      simp [findRunDir, pyIntE, hbad]
    simp [get_particles_at_iter, h1, h2]
  · intro name frags hname
    have h1 := findRunDir_append_skip pre it hpre ((name, frags) :: post)
    have h2 : findRunDir ((name, frags) :: post) it = Except.ok frags := by
      simp [findRunDir, pyIntE, hname]
    simp [get_particles_at_iter, h1, h2]

/-- Witness for `get_particles_at_iter_listing_order`: after the non-matching
entry "7", the name "0" matches iteration 0 and wins over the later entry
"00", which also parses to 0. -/
theorem get_particles_at_iter_listing_order_witness :
    (∀ e ∈ ([("7", [])] : Storage ℚ), ∃ n, pyInt e.1 = some n ∧ n ≠ 0) ∧
    get_particles_at_iter
        ([("7", [])] ++ ("0", [[recB]]) :: [("00", [[recA]])] : Storage ℚ) 0 =
      Except.ok (_combine_batches [[recB]]) := by
  have hpre : ∀ e ∈ ([("7", [])] : Storage ℚ), ∃ n, pyInt e.1 = some n ∧ n ≠ 0 := by
    intro e he
    have h := List.mem_singleton.mp he
    subst h
    exact ⟨7, rfl, by decide⟩
  exact ⟨hpre,
    (get_particles_at_iter_listing_order [("7", [])] [("00", [[recA]])] 0 hpre).2
      "0" [[recB]] rfl⟩

/-- `mapE` of `__iter_to_cells` pairs each parsed directory name with the
directory's combined batch, in listing order. -/
theorem mapE_iter_to_cells {α : Type} : ∀ (l : Storage α) (ns : List Int),
    mapE pyIntE (l.map Prod.fst) = Except.ok ns →
    mapE __iter_to_cells l =
      Except.ok (ns.zip (l.map (fun e => _combine_batches e.2)))
  | [], ns, h => by
      simp [mapE] at h
      simp [mapE, ← h]
  | (name, fr) :: rest, ns, h => by
      rcases hp : pyInt name with _ | n
      · simp [mapE, pyIntE, hp] at h
      · rcases hrec : mapE pyIntE (rest.map Prod.fst) with e | ms
        · simp [mapE, pyIntE, hp, hrec] at h
        · have hrest := mapE_iter_to_cells rest ms hrec
          simp [mapE, pyIntE, hp, hrec] at h
          simp [mapE, __iter_to_cells, pyIntE, hp, hrest, ← h]

/-- C4: `get_particles_at_all_iterations` processes at most the first 10
discovered iteration directories (`runs[:10]`): when all of their names
parse, it returns the list mapping each of those iteration numbers (as an
integer) to that iteration's combined, untabularized record batch, and the
result has exactly `min 10 (number of directories)` entries. -/
theorem get_particles_at_all_iterations_spec {α : Type} (storage : Storage α)
    (ns : List Int)
    (h : mapE pyIntE ((storage.take 10).map Prod.fst) = Except.ok ns) :
    get_particles_at_all_iterations storage =
      Except.ok (ns.zip ((storage.take 10).map (fun e => _combine_batches e.2))) ∧
    (ns.zip ((storage.take 10).map (fun e => _combine_batches e.2))).length =
      min 10 storage.length := by
  have hmain := mapE_iter_to_cells (storage.take 10) ns h
  have hlen : ns.length = (storage.take 10).length := by
    have := mapE_ok_length pyIntE ((storage.take 10).map Prod.fst) ns h
    simpa using this
  constructor
  · exact hmain
  · simp [List.length_zip, hlen, List.length_take]

/-- Witness for `get_particles_at_all_iterations_spec` on the one-directory
storage `storageEx`. -/
theorem get_particles_at_all_iterations_spec_witness :
    mapE pyIntE ((storageEx.take 10).map Prod.fst) = Except.ok [0] ∧
    get_particles_at_all_iterations storageEx =
      Except.ok ([0].zip ((storageEx.take 10).map (fun e => _combine_batches e.2))) ∧
    ([0].zip ((storageEx.take 10).map (fun e => _combine_batches e.2))).length =
      min 10 storageEx.length :=
  ⟨rfl, (get_particles_at_all_iterations_spec storageEx [0] rfl).1,
    (get_particles_at_all_iterations_spec storageEx [0] rfl).2⟩

/-! ## Geometry construction (`generate_spheres`) -/

/-- A pyvista point cloud with the per-point data attached in
`generate_spheres`; instancing the unit-sphere glyph at every point (scaled
by `diameter`, no orientation) keeps these data. -/
structure PointCloud (α : Type) where
  points : List (α × α × α)
  diameter : List α
  species : List String
  neighbour_count : List Int
deriving DecidableEq

/-- The table rows whose species column equals "Cargo"
(`df[df["element.cell.interaction.species"] == "Cargo"]`). -/
def cargoRows {α : Type} (df : List (ParticleRecord α)) : List (ParticleRecord α) :=
  df.filter (fun r => r.species == "Cargo")

/-- The table rows whose species column differs from "Cargo"
(`df[df["element.cell.interaction.species"] != "Cargo"]`). -/
def nonCargoRows {α : Type} (df : List (ParticleRecord α)) : List (ParticleRecord α) :=
  df.filter (fun r => r.species != "Cargo")

/-- The cargo point cloud `pset_cargo` with its attached fields
(`diameter` is `2.0 * cell_radius`; the neighbour-count field is named
`neighbour_count1` in the source). -/
def cargoCloud {α : Type} [Mul α] [OfNat α 2] (df : List (ParticleRecord α)) :
    PointCloud α :=
  { points := (cargoRows df).map (fun r => r.pos),
    diameter := (cargoRows df).map (fun r => 2 * r.cell_radius),
    species := (cargoRows df).map (fun r => r.species),
    neighbour_count := (cargoRows df).map (fun r => r.neighbour_count) }

/-- The non-cargo point cloud `pset_r11` with its attached fields
(`diameter` is `2.0 * cell_radius`; the neighbour-count field is named
`neighbour_count2` in the source). -/
def nonCargoCloud {α : Type} [Mul α] [OfNat α 2] (df : List (ParticleRecord α)) :
    PointCloud α :=
  { points := (nonCargoRows df).map (fun r => r.pos),
    diameter := (nonCargoRows df).map (fun r => 2 * r.cell_radius),
    species := (nonCargoRows df).map (fun r => r.species),
    neighbour_count := (nonCargoRows df).map (fun r => r.neighbour_count) }

/-- `generate_spheres(output_path, iteration)`: load the iteration's particle
table and build the two species point clouds with sphere glyphs. -/
def generate_spheres {α : Type} [Mul α] [OfNat α 2] (storage : Storage α)
    (iteration : Int) : Except PyErr (PointCloud α × PointCloud α) :=
  match get_particles_at_iter storage iteration with
  | Except.error e => Except.error e
  | Except.ok df => Except.ok (cargoCloud df, nonCargoCloud df)

/-- The two species filters split the table without losing or duplicating
rows (counted with multiplicity). -/
theorem filter_partition_length {α : Type} : ∀ df : List (ParticleRecord α),
    (cargoRows df).length + (nonCargoRows df).length = df.length
  | [] => rfl
  | r :: rest => by
      have ih := filter_partition_length rest
      unfold cargoRows nonCargoRows at ih ⊢
      by_cases h : r.species = "Cargo" <;>
        simp [List.filter_cons, h] <;> omega

/-- C8: in `generate_spheres` the species partition of the particle table is
exhaustive and disjoint: every row belongs to the cargo group exactly when
its species is "Cargo" and to the other group exactly when it is not, so
each row is in exactly one group, and the groups' sizes add up to the table
size.  Each group's attached diameter field lists twice the cell radius of
each of its rows. -/
theorem generate_spheres_partition {α : Type} [Mul α] [OfNat α 2]
    (storage : Storage α) (it : Int) (df : List (ParticleRecord α))
    (c r : PointCloud α)
    (hdf : get_particles_at_iter storage it = Except.ok df)
    (hg : generate_spheres storage it = Except.ok (c, r)) :
    (∀ row ∈ df, (row ∈ cargoRows df ↔ row.species = "Cargo") ∧
      (row ∈ nonCargoRows df ↔ row.species ≠ "Cargo") ∧
      ((row ∈ cargoRows df ∧ row ∉ nonCargoRows df) ∨
       (row ∉ cargoRows df ∧ row ∈ nonCargoRows df))) ∧
    (cargoRows df).length + (nonCargoRows df).length = df.length ∧
    c.diameter = (cargoRows df).map (fun row => 2 * row.cell_radius) ∧
    r.diameter = (nonCargoRows df).map (fun row => 2 * row.cell_radius) := by
  have hgen : generate_spheres storage it =
      Except.ok (cargoCloud df, nonCargoCloud df) := by
    simp [generate_spheres, hdf]
  rw [hgen] at hg
  have hpair := Except.ok.inj hg
  injection hpair with hc hr
  refine ⟨fun row hrow => ?_, filter_partition_length df,
    by rw [← hc]; rfl, by rw [← hr]; rfl⟩
  have h1 : row ∈ cargoRows df ↔ row.species = "Cargo" := by
    simp [cargoRows, List.mem_filter, hrow]
  have h2 : row ∈ nonCargoRows df ↔ row.species ≠ "Cargo" := by
    simp [nonCargoRows, List.mem_filter, hrow]
  refine ⟨h1, h2, ?_⟩
  by_cases h : row.species = "Cargo"
  · exact Or.inl ⟨h1.mpr h, fun hm => (h2.mp hm) h⟩
  · exact Or.inr ⟨fun hm => h (h1.mp hm), h2.mpr h⟩

/-- Witness for `generate_spheres_partition` on the sample storage: one
cargo row and one non-cargo row out of three rows (2 + 1 = 3). -/
theorem generate_spheres_partition_witness :
    get_particles_at_iter storageEx 0 = Except.ok [recA, recB, recA] ∧
    generate_spheres storageEx 0 =
      Except.ok (cargoCloud [recA, recB, recA], nonCargoCloud [recA, recB, recA]) ∧
    (cargoRows [recA, recB, recA]).length +
      (nonCargoRows [recA, recB, recA]).length = 3 :=
  ⟨rfl, rfl,
    (generate_spheres_partition storageEx 0 [recA, recB, recA]
      (cargoCloud [recA, recB, recA]) (nonCargoCloud [recA, recB, recA])
      rfl rfl).2.1⟩

/-! ## Snapshot rendering (`save_snapshot`) -/

/-- The parsed `simulation_settings.json` (only `domain_size` is consumed,
for camera placement). -/
structure SimulationSettings where
  domain_size : ℚ
deriving DecidableEq

/-- World state touched by `save_snapshot`: the parse result of the settings
file (`none` means missing or malformed, so `get_simulation_settings`
raises), the existing directories, the existing image files, and the
storage tree. -/
structure RunState (α : Type) where
  settings : Option SimulationSettings
  dirs : List FsPath
  files : List FsPath
  storage : Storage α
deriving DecidableEq

/-- Python zero-padded `"{:08}".format(iteration)` (sign-aware fill). -/
def fmt08 (i : Int) : String :=
  if i < 0 then
    let s := toString (-i).toNat
    "-" ++ String.mk (List.replicate (7 - s.length) '0') ++ s
  else
    let s := toString i.toNat
    String.mk (List.replicate (8 - s.length) '0') ++ s

/-- File name `"snapshot_{:08}.png".format(iteration)`. -/
def snapshotName (iteration : Int) : String :=
  "snapshot_" ++ fmt08 iteration ++ ".png"

/-- `ofolder.mkdir(parents=True, exist_ok=True)` on the set of directories. -/
def mkdirP (dirs : List FsPath) (p : FsPath) : List FsPath :=
  if p ∈ dirs then dirs else dirs ++ [p]

/-- `plotter.screenshot(opath)` on the set of files: creates the file, or
overwrites its content, which leaves the set of existing files unchanged. -/
def writeFile (files : List FsPath) (p : FsPath) : List FsPath :=
  if p ∈ files then files else files ++ [p]

theorem mkdirP_self_mem (dirs : List FsPath) (p : FsPath) : p ∈ mkdirP dirs p := by
  unfold mkdirP
  by_cases h : p ∈ dirs
  · simp [h]
  · simp [h]

theorem mkdirP_eq_of_mem (dirs : List FsPath) (p : FsPath) (h : p ∈ dirs) :
    mkdirP dirs p = dirs := by
  simp [mkdirP, h]

theorem writeFile_mem (files : List FsPath) (p : FsPath) : p ∈ writeFile files p := by
  unfold writeFile
  by_cases h : p ∈ files
  · simp [h]
  · simp [h]

/-- `save_snapshot(output_path, iteration, overwrite=False)`: read the
settings file, create the `snapshots` folder, then return without work when
the target image exists and overwrite is off; otherwise run the full render
pipeline (`generate_spheres`, camera placement from the settings, rasterize)
and write the image.  The returned flag is `true` exactly when the pipeline
ran and the image was written. -/
def save_snapshot {α : Type} [Mul α] [OfNat α 2] (output_path : FsPath)
    (st : RunState α) (iteration : Int) (overwrite : Bool) :
    Except PyErr (RunState α × Bool) :=
  match st.settings with
  | none => Except.error PyErr.settingsError
  | some _simulation_settings =>
    let ofolder := output_path ++ ["snapshots"]
    let st1 : RunState α := { st with dirs := mkdirP st.dirs ofolder }
    let opath := ofolder ++ [snapshotName iteration]
    if opath ∈ st1.files ∧ overwrite = false then
      Except.ok (st1, false)
    else
      match generate_spheres st1.storage iteration with
      | Except.error e => Except.error e
      | Except.ok _ =>
        Except.ok ({ st1 with files := writeFile st1.files opath }, true)

/-- A call that wrote (`true` flag) left exactly the state with the
snapshots directory ensured and the image file added. -/
theorem save_snapshot_wrote {α : Type} [Mul α] [OfNat α 2] (output_path : FsPath)
    (st : RunState α) (iteration : Int) (ow : Bool) (st2 : RunState α)
    (h : save_snapshot output_path st iteration ow = Except.ok (st2, true)) :
    st2 = { st with
      dirs := mkdirP st.dirs (output_path ++ ["snapshots"]),
      files := writeFile st.files
        ((output_path ++ ["snapshots"]) ++ [snapshotName iteration]) } := by
  rcases hset : st.settings with _ | s0
  · simp [save_snapshot, hset] at h
  · simp only [save_snapshot, hset] at h
    split at h
    · simp at h
    · split at h
      · simp at h
      · simp only [Except.ok.injEq, Prod.mk.injEq] at h
        exact h.1.symm

/-- On a state that already has the settings readable, the snapshots folder
present and the target image present, `save_snapshot` without overwrite is a
no-op returning the state unchanged. -/
theorem save_snapshot_noop {α : Type} [Mul α] [OfNat α 2] (output_path : FsPath)
    (st2 : RunState α) (iteration : Int) (s : SimulationSettings)
    (hs : st2.settings = some s)
    (hd : (output_path ++ ["snapshots"]) ∈ st2.dirs)
    (hf : ((output_path ++ ["snapshots"]) ++ [snapshotName iteration]) ∈ st2.files) :
    save_snapshot output_path st2 iteration false = Except.ok (st2, false) := by
  have hm : mkdirP st2.dirs (output_path ++ ["snapshots"]) = st2.dirs :=
    mkdirP_eq_of_mem _ _ hd
  have hf2 : output_path ++ ["snapshots", snapshotName iteration] ∈ st2.files := by
    simpa using hf
  have heta : ({ settings := some s, dirs := st2.dirs, files := st2.files,
                 storage := st2.storage } : RunState α) = st2 := by
    rw [← hs]
  simp [save_snapshot, hs, hf2, hm, heta]

/-- C3: when the target snapshot image already exists and overwrite is false,
`save_snapshot` performs no render and writes no file (only the
`snapshots` directory is ensured); a second call without overwrite right
after any successful writing call is a no-op returning the state unchanged.
With overwrite=true it runs the full render pipeline and writes the file
(premised on the pipeline succeeding). -/
theorem save_snapshot_overwrite_spec {α : Type} [Mul α] [OfNat α 2]
    (output_path : FsPath) (st : RunState α) (iteration : Int)
    (s : SimulationSettings) :
    (st.settings = some s →
      ((output_path ++ ["snapshots"]) ++ [snapshotName iteration]) ∈ st.files →
      save_snapshot output_path st iteration false =
        Except.ok
          ({ st with dirs := mkdirP st.dirs (output_path ++ ["snapshots"]) },
           false)) ∧
    (∀ g, st.settings = some s →
      generate_spheres st.storage iteration = Except.ok g →
      ∃ st2, save_snapshot output_path st iteration true = Except.ok (st2, true) ∧
        ((output_path ++ ["snapshots"]) ++ [snapshotName iteration]) ∈ st2.files) ∧
    (∀ ow st2, save_snapshot output_path st iteration ow = Except.ok (st2, true) →
      save_snapshot output_path st2 iteration false = Except.ok (st2, false)) := by
  refine ⟨?_, ?_, ?_⟩
  · intro hs hfile
    have hfile2 : output_path ++ ["snapshots", snapshotName iteration] ∈ st.files := by
      simpa using hfile
    simp [save_snapshot, hs, hfile2]
  · intro g hs hg
    refine ⟨{ st with
        dirs := mkdirP st.dirs (output_path ++ ["snapshots"]),
        files := writeFile st.files
          ((output_path ++ ["snapshots"]) ++ [snapshotName iteration]) },
      ?_, writeFile_mem st.files _⟩
    simp [save_snapshot, hs, hg]
  · intro ow st2 h
    rcases hset : st.settings with _ | s0
    · simp [save_snapshot, hset] at h
    · have h2 := save_snapshot_wrote output_path st iteration ow st2 h
      apply save_snapshot_noop output_path st2 iteration s0
      · rw [h2]
        exact hset
      · rw [h2]
        exact mkdirP_self_mem st.dirs _
      · rw [h2]
        exact writeFile_mem st.files _

/-- A sample run state over `ℚ` whose snapshot for iteration 0 already
exists (with the run rooted at the empty path). -/
def runStEx2 : RunState ℚ :=
  { settings := some { domain_size := 100 },
    dirs := [["snapshots"]],
    files := [["snapshots", snapshotName 0]],
    storage := storageEx }

/-- Witness for `save_snapshot_overwrite_spec` on `runStEx2`: the skip branch
and the overwrite branch at iteration 0. -/
theorem save_snapshot_overwrite_spec_witness :
    runStEx2.settings = some { domain_size := 100 } ∧
    ((([] : FsPath) ++ ["snapshots"]) ++ [snapshotName 0]) ∈ runStEx2.files ∧
    save_snapshot ([] : FsPath) runStEx2 0 false =
      Except.ok
        ({ runStEx2 with dirs := mkdirP runStEx2.dirs ([] ++ ["snapshots"]) },
         false) ∧
    ∃ st2, save_snapshot ([] : FsPath) runStEx2 0 true = Except.ok (st2, true) ∧
      ((([] : FsPath) ++ ["snapshots"]) ++ [snapshotName 0]) ∈ st2.files := by
  have hmem : ((([] : FsPath) ++ ["snapshots"]) ++ [snapshotName 0]) ∈ runStEx2.files :=
    List.mem_singleton.mpr rfl
  refine ⟨rfl, hmem, ?_, ?_⟩
  · exact (save_snapshot_overwrite_spec [] runStEx2 0 ⟨100⟩).1 rfl hmem
  · exact (save_snapshot_overwrite_spec [] runStEx2 0 ⟨100⟩).2.1
      (cargoCloud [recA, recB, recA], nonCargoCloud [recA, recB, recA]) rfl rfl

/-- C9: `save_snapshot` reads and parses the settings file and creates the
snapshots directory before the skip-if-exists check: when the settings file
is missing or malformed the call fails even though the target image exists
and overwrite is false, and every successful call (the no-op skip branch
included) leaves the snapshots directory existing in the returned state. -/
theorem save_snapshot_settings_first {α : Type} [Mul α] [OfNat α 2]
    (output_path : FsPath) (st : RunState α) (iteration : Int) :
    (st.settings = none →
      ((output_path ++ ["snapshots"]) ++ [snapshotName iteration]) ∈ st.files →
      save_snapshot output_path st iteration false =
        Except.error PyErr.settingsError) ∧
    (∀ ow res, save_snapshot output_path st iteration ow = Except.ok res →
      (output_path ++ ["snapshots"]) ∈ res.1.dirs) := by
  constructor
  · intro hs _
    simp [save_snapshot, hs]
  · intro ow res h
    rcases hset : st.settings with _ | s0
    · simp [save_snapshot, hset] at h
    · simp only [save_snapshot, hset] at h
      split at h
      · simp only [Except.ok.injEq] at h
        rw [← h]
        exact mkdirP_self_mem st.dirs _
      · split at h
        · simp at h
        · simp only [Except.ok.injEq] at h
          rw [← h]
          exact mkdirP_self_mem st.dirs _

/-- A sample run state whose settings file is missing while the snapshot
image for iteration 0 exists. -/
def runStExNone : RunState ℚ :=
  { settings := none,
    dirs := [["snapshots"]],
    files := [["snapshots", snapshotName 0]],
    storage := storageEx }

/-- Witness for `save_snapshot_settings_first` on `runStExNone`. -/
theorem save_snapshot_settings_first_witness :
    runStExNone.settings = none ∧
    ((([] : FsPath) ++ ["snapshots"]) ++ [snapshotName 0]) ∈ runStExNone.files ∧
    save_snapshot ([] : FsPath) runStExNone 0 false =
      Except.error PyErr.settingsError :=
  ⟨rfl, List.mem_singleton.mpr rfl,
    (save_snapshot_settings_first [] runStExNone 0).1 rfl
      (List.mem_singleton.mpr rfl)⟩

/-! ## Scatter rendering (`save_scatter_snapshot`) -/

/-- `np.arctan2(y, x)`: the angle of the point `(x, y)`, in `(-π, π]`,
modelled as the complex argument of `x + y·i`. -/
noncomputable def arctan2 (y x : ℝ) : ℝ := Complex.arg { re := x, im := y }

/-- One row of `appendSpherical_np`, the three columns appended to a
position `(x, y, z)`: with `xy = x² + y²`, the radius `sqrt(xy + z²)`, the
elevation angle from the Z-axis `arctan2(sqrt(xy), z)`, and the azimuth
`arctan2(y, x)`. -/
noncomputable def appendSpherical (v : ℝ × ℝ × ℝ) : ℝ × ℝ × ℝ :=
  let xy := v.1 ^ 2 + v.2.1 ^ 2
  (Real.sqrt (xy + v.2.2 ^ 2),
   arctan2 (Real.sqrt xy) v.2.2,
   arctan2 v.2.1 v.1)

/-- Componentwise difference of 3-vectors
(`non_cargo_at_end - cargo_middle`). -/
def vsub3 (a b : ℝ × ℝ × ℝ) : ℝ × ℝ × ℝ :=
  (a.1 - b.1, a.2.1 - b.2.1, a.2.2 - b.2.2)

/-- `np.average(positions, axis=0)`: the componentwise mean
(`cargo_middle`, computed over the non-cargo positions). -/
noncomputable def centroid (ps : List (ℝ × ℝ × ℝ)) : ℝ × ℝ × ℝ :=
  ((ps.map (fun p => p.1)).sum / ps.length,
   (ps.map (fun p => p.2.1)).sum / ps.length,
   (ps.map (fun p => p.2.2)).sum / ps.length)

/-- `np.max` of a list; the source applies it only to nonempty data
(at least one non-cargo row), the `[]` value is irrelevant. -/
noncomputable def listMax : List ℝ → ℝ
  | [] => 0
  | x :: xs => xs.foldl max x

/-- The position column of the non-cargo rows
(`df[df[...species] != "Cargo"][...pos]`). -/
def nonCargoPos (df : List (ParticleRecord ℝ)) : List (ℝ × ℝ × ℝ) :=
  (nonCargoRows df).map (fun r => r.pos)

/-- `non_cargo_at_end - cargo_middle`: the non-cargo positions recentered on
their centroid. -/
noncomputable def recentered (df : List (ParticleRecord ℝ)) : List (ℝ × ℝ × ℝ) :=
  (nonCargoPos df).map (fun q => vsub3 q (centroid (nonCargoPos df)))

/-- `non_cargo_at_end_spherical`: the spherical rows of the recentered
non-cargo positions. -/
noncomputable def scatterSpherical (df : List (ParticleRecord ℝ)) :
    List (ℝ × ℝ × ℝ) :=
  (recentered df).map appendSpherical

/-- The radius column `r = sph[:, 3]`. -/
noncomputable def scatterR (df : List (ParticleRecord ℝ)) : List ℝ :=
  (scatterSpherical df).map (fun s => s.1)

/-- The plotted point-size column `r_inv = np.max(r) - r`. -/
noncomputable def scatterRInv (df : List (ParticleRecord ℝ)) : List ℝ :=
  (scatterR df).map (fun t => listMax (scatterR df) - t)

/-- The plot's x column `phi = sph[:, 4]` (elevation from the Z-axis). -/
noncomputable def scatterPhi (df : List (ParticleRecord ℝ)) : List ℝ :=
  (scatterSpherical df).map (fun s => s.2.1)

/-- The plot's y column `theta = sph[:, 5]` (azimuth in the XY-plane). -/
noncomputable def scatterTheta (df : List (ParticleRecord ℝ)) : List ℝ :=
  (scatterSpherical df).map (fun s => s.2.2)

section ScatterLemmas

theorem complexAbs_mk (x y : ℝ) :
    Complex.abs { re := x, im := y } = Real.sqrt (x ^ 2 + y ^ 2) := by
  rw [Complex.abs_apply, Complex.normSq_mk]
  congr 1
  ring

theorem arctan2_nonneg (y x : ℝ) (hy : 0 ≤ y) : 0 ≤ arctan2 y x :=
  Complex.arg_nonneg_iff.mpr hy

theorem arctan2_le_pi (y x : ℝ) : arctan2 y x ≤ Real.pi :=
  Complex.arg_le_pi _

theorem arctan2_cos_mul (y x : ℝ) :
    Real.cos (arctan2 y x) * Real.sqrt (x ^ 2 + y ^ 2) = x := by
  by_cases hz : ({ re := x, im := y } : ℂ) = 0
  · have hx : x = 0 := congrArg Complex.re hz
    have hy : y = 0 := congrArg Complex.im hz
    subst hx
    subst hy
    simp
  · have habs := complexAbs_mk x y
    have hs : Real.sqrt (x ^ 2 + y ^ 2) ≠ 0 := by
      rw [← habs]
      exact Complex.abs.ne_zero hz
    have hre : ({ re := x, im := y } : ℂ).re = x := rfl
    rw [arctan2, Complex.cos_arg hz, hre, habs]
    exact div_mul_cancel₀ x hs

theorem arctan2_sin_mul (y x : ℝ) :
    Real.sin (arctan2 y x) * Real.sqrt (x ^ 2 + y ^ 2) = y := by
  by_cases hz : ({ re := x, im := y } : ℂ) = 0
  · have hx : x = 0 := congrArg Complex.re hz
    have hy : y = 0 := congrArg Complex.im hz
    subst hx
    subst hy
    simp
  · have habs := complexAbs_mk x y
    have hs : Real.sqrt (x ^ 2 + y ^ 2) ≠ 0 := by
      rw [← habs]
      exact Complex.abs.ne_zero hz
    have him : ({ re := x, im := y } : ℂ).im = y := rfl
    rw [arctan2, Complex.sin_arg, him, habs]
    exact div_mul_cancel₀ y hs

/-- The three spherical columns of one recentered point: the radius is the
nonnegative square root of the squared norm; the elevation angle lies in
`[0, π]` and is measured from the +Z axis (`cos · radius` recovers the z
coordinate); the azimuth lives in the XY-plane (`cos`/`sin` scaled by the
planar radius recover the x and y coordinates). -/
theorem appendSpherical_spec (v : ℝ × ℝ × ℝ) :
    0 ≤ (appendSpherical v).1 ∧
    (appendSpherical v).1 ^ 2 = v.1 ^ 2 + v.2.1 ^ 2 + v.2.2 ^ 2 ∧
    0 ≤ (appendSpherical v).2.1 ∧ (appendSpherical v).2.1 ≤ Real.pi ∧
    Real.cos (appendSpherical v).2.1 * (appendSpherical v).1 = v.2.2 ∧
    Real.cos (appendSpherical v).2.2 * Real.sqrt (v.1 ^ 2 + v.2.1 ^ 2) = v.1 ∧
    Real.sin (appendSpherical v).2.2 * Real.sqrt (v.1 ^ 2 + v.2.1 ^ 2) = v.2.1 := by
  obtain ⟨x, y, z⟩ := v
  simp only [appendSpherical]
  refine ⟨Real.sqrt_nonneg _, Real.sq_sqrt (by positivity),
    arctan2_nonneg _ _ (Real.sqrt_nonneg _), arctan2_le_pi _ _, ?_,
    arctan2_cos_mul y x, arctan2_sin_mul y x⟩
  have h := arctan2_cos_mul (Real.sqrt (x ^ 2 + y ^ 2)) z
  rw [Real.sq_sqrt (by positivity : (0:ℝ) ≤ x ^ 2 + y ^ 2)] at h
  rw [add_comm (z ^ 2)] at h
  exact h

theorem le_foldl_max : ∀ (xs : List ℝ) (a : ℝ), a ≤ xs.foldl max a
  | [], a => le_refl a
  | x :: xs, a => le_trans (le_max_left a x) (le_foldl_max xs (max a x))

theorem mem_le_foldl_max : ∀ (xs : List ℝ) (a x : ℝ), x ∈ xs → x ≤ xs.foldl max a
  | [], _, x, hx => absurd hx (List.not_mem_nil x)
  | y :: ys, a, x, hx => by
      rcases List.mem_cons.mp hx with rfl | hm
      · exact le_trans (le_max_right a x) (le_foldl_max ys (max a x))
      · exact mem_le_foldl_max ys (max a y) x hm

/-- Every member of a list is at most its `np.max`. -/
theorem le_listMax (l : List ℝ) (x : ℝ) (hx : x ∈ l) : x ≤ listMax l := by
  cases l with
  | nil => cases hx
  | cons a xs =>
    rcases List.mem_cons.mp hx with rfl | hm
    · exact le_foldl_max xs x
    · exact mem_le_foldl_max xs a x hm

theorem sum_map_sub_const : ∀ (xs : List ℝ) (c : ℝ),
    (xs.map (fun x => x - c)).sum = xs.sum - xs.length * c
  | [], c => by simp
  | x :: xs, c => by
      simp only [List.map_cons, List.sum_cons, sum_map_sub_const xs c,
        List.length_cons]
      push_cast
      ring

/-- Recentering a nonempty list of reals on its mean makes the sum vanish. -/
theorem sum_map_sub_centroid (xs : List ℝ) (hne : xs ≠ []) :
    (xs.map (fun x => x - xs.sum / xs.length)).sum = 0 := by
  have hpos : 0 < xs.length := List.length_pos.mpr hne
  have h0 : (xs.length : ℝ) ≠ 0 := by
    exact_mod_cast hpos.ne'
  rw [sum_map_sub_const]
  field_simp

theorem sum_proj_sub_centroid (ps : List (ℝ × ℝ × ℝ)) (hne : ps ≠ [])
    (f : ℝ × ℝ × ℝ → ℝ) :
    (ps.map (fun q => f q - (ps.map f).sum / ps.length)).sum = 0 := by
  have hxs : ps.map f ≠ [] := by simpa using hne
  have h := sum_map_sub_centroid (ps.map f) hxs
  rw [List.map_map] at h
  simpa [Function.comp, List.length_map] using h

/-- The componentwise sums of a nonempty point list recentered on its
centroid all vanish. -/
theorem sum_vsub3_centroid (ps : List (ℝ × ℝ × ℝ)) (hne : ps ≠ []) :
    ((ps.map (fun q => vsub3 q (centroid ps))).map (fun v => v.1)).sum = 0 ∧
    ((ps.map (fun q => vsub3 q (centroid ps))).map (fun v => v.2.1)).sum = 0 ∧
    ((ps.map (fun q => vsub3 q (centroid ps))).map (fun v => v.2.2)).sum = 0 := by
  refine ⟨?_, ?_, ?_⟩
  · rw [List.map_map]
    have h := sum_proj_sub_centroid ps hne (fun p => p.1)
    simpa [Function.comp, vsub3, centroid] using h
  · rw [List.map_map]
    have h := sum_proj_sub_centroid ps hne (fun p => p.2.1)
    simpa [Function.comp, vsub3, centroid] using h
  · rw [List.map_map]
    have h := sum_proj_sub_centroid ps hne (fun p => p.2.2)
    simpa [Function.comp, vsub3, centroid] using h

end ScatterLemmas

/-- C7: for every iteration table with at least one non-cargo row,
`save_scatter_snapshot` recenters the non-cargo positions on the centroid of
the non-cargo positions (so the recentered coordinates sum to zero in every
component) and converts them to spherical coordinates: the radius is
`sqrt(x² + y² + z²)` of the recentered point (nonnegative, squaring back to
the squared norm), the polar angle lies in `[0, π]` and is measured from the
+Z axis (`cos(polar) · radius = z`), and the azimuth lies in the XY-plane
(`cos`/`sin` of it scaled by `sqrt(x² + y²)` recover `x` and `y`).  The
point sizes are `max(radius) - radius`, so a point nearer the centroid
renders at least as large as any farther one. -/
theorem save_scatter_snapshot_spec (df : List (ParticleRecord ℝ))
    (hne : nonCargoPos df ≠ []) :
    scatterSpherical df = (recentered df).map appendSpherical ∧
    scatterRInv df = (scatterR df).map (fun t => listMax (scatterR df) - t) ∧
    ((recentered df).map (fun v => v.1)).sum = 0 ∧
    ((recentered df).map (fun v => v.2.1)).sum = 0 ∧
    ((recentered df).map (fun v => v.2.2)).sum = 0 ∧
    (∀ v ∈ recentered df,
      0 ≤ (appendSpherical v).1 ∧
      (appendSpherical v).1 ^ 2 = v.1 ^ 2 + v.2.1 ^ 2 + v.2.2 ^ 2 ∧
      0 ≤ (appendSpherical v).2.1 ∧ (appendSpherical v).2.1 ≤ Real.pi ∧
      Real.cos (appendSpherical v).2.1 * (appendSpherical v).1 = v.2.2 ∧
      Real.cos (appendSpherical v).2.2 * Real.sqrt (v.1 ^ 2 + v.2.1 ^ 2) = v.1 ∧
      Real.sin (appendSpherical v).2.2 * Real.sqrt (v.1 ^ 2 + v.2.1 ^ 2) = v.2.1 ∧
      (appendSpherical v).1 ∈ scatterR df ∧
      (listMax (scatterR df) - (appendSpherical v).1) ∈ scatterRInv df ∧
      (appendSpherical v).1 ≤ listMax (scatterR df)) ∧
    (∀ a ∈ scatterR df, ∀ b ∈ scatterR df, a ≤ b →
      listMax (scatterR df) - b ≤ listMax (scatterR df) - a) := by
  have hsums := sum_vsub3_centroid (nonCargoPos df) hne
  refine ⟨rfl, rfl, hsums.1, hsums.2.1, hsums.2.2, ?_, ?_⟩
  · intro v hv
    have hsp := appendSpherical_spec v
    have hmemSph : appendSpherical v ∈ scatterSpherical df :=
      List.mem_map.mpr ⟨v, hv, rfl⟩
    have hmemR : (appendSpherical v).1 ∈ scatterR df :=
      List.mem_map.mpr ⟨appendSpherical v, hmemSph, rfl⟩
    have hmemRInv : (listMax (scatterR df) - (appendSpherical v).1) ∈ scatterRInv df :=
      List.mem_map.mpr ⟨(appendSpherical v).1, hmemR, rfl⟩
    exact ⟨hsp.1, hsp.2.1, hsp.2.2.1, hsp.2.2.2.1, hsp.2.2.2.2.1,
      hsp.2.2.2.2.2.1, hsp.2.2.2.2.2.2, hmemR, hmemRInv,
      le_listMax _ _ hmemR⟩
  · intro a _ b _ hab
    linarith

/-- A sample non-cargo particle record over `ℝ` at the origin. -/
def recC : ParticleRecord ℝ :=
  { identifier := [2, 0], pos := (0, 0, 0), vel := (0, 0, 0),
    random_vector := (0, 0, 0), species := "R11", cell_radius := 1,
    neighbour_count := 0 }

/-- A sample non-cargo particle record over `ℝ` at `(2, 2, 2)`. -/
def recD : ParticleRecord ℝ :=
  { identifier := [3, 0], pos := (2, 2, 2), vel := (0, 0, 0),
    random_vector := (0, 0, 0), species := "R11", cell_radius := 1,
    neighbour_count := 0 }

/-- A sample table over `ℝ` with two non-cargo rows (centroid `(1, 1, 1)`). -/
def dfEx7 : List (ParticleRecord ℝ) := [recC, recD]

/-- Witness for `save_scatter_snapshot_spec` on the two-row table `dfEx7`. -/
theorem save_scatter_snapshot_spec_witness :
    nonCargoPos dfEx7 ≠ [] ∧
    ((recentered dfEx7).map (fun v => v.1)).sum = 0 := by
  have h : nonCargoPos dfEx7 = [((0:ℝ), 0, 0), (2, 2, 2)] := rfl
  have hne : nonCargoPos dfEx7 ≠ [] := by simp [h]
  exact ⟨hne, (save_scatter_snapshot_spec dfEx7 hne).2.2.1⟩
